import Mathlib

/-!
# Verification of the win32 dlfcn shim (`src/win32-dlfcn.cc`)

A shallow embedding of the four operations `dlopen`, `dlsym`, `dlclose`,
`dlerror` and of the helper `str_to_uint16`, together with proofs of the
specification's claims about them.

The platform loader (Win32) is modelled as an environment of abstract
responses (`Env`); the shim's own process-wide state (the `lastError`
cell and the process error mode) is an explicit record (`W32State`)
threaded through each operation.  Each operation additionally reports
the platform interactions the claims talk about: `dlopen` returns the
list of error-mode / load events it performed, `dlclose` reports whether
`FreeLibrary` was invoked, and `dlsym` reports the argument (ordinal or
name) it handed to `GetProcAddress`.
-/

/-- The characters accepted by C `isspace` in the default locale. -/
def isCSpace (c : Char) : Bool :=
  c == ' ' || c == '\t' || c == '\n' || c == '\x0b' || c == '\x0c' || c == '\r'

/-- Value of `intmax_t`'s maximum (64-bit). -/
def INTMAX_MAX : Int := 9223372036854775807

/-- Value of `intmax_t`'s minimum (64-bit). -/
def INTMAX_MIN : Int := -9223372036854775808

/-- Consume a maximal run of ASCII digits, accumulating their base-10
value; returns the value and the unconsumed remainder of the string. -/
def parseDigits : List Char → Nat → Nat × List Char
  | [], acc => (acc, [])
  | c :: cs, acc =>
    if c.isDigit then parseDigits cs (acc * 10 + (c.toNat - 48))
    else (acc, c :: cs)

/-- Strip one optional leading sign, reporting whether it was a minus. -/
def splitSign : List Char → Bool × List Char
  | [] => (false, [])
  | c :: r =>
    if c = '-' then (true, r)
    else if c = '+' then (false, r)
    else (false, c :: r)

/-- Result of `strtoimax(str, &end, 10)`: the (clamped) value, whether
`errno` was set to `ERANGE`, whether any digits were converted
(`end != str`), and the characters left after `end`. -/
structure StrtoResult where
  value : Int
  erange : Bool
  consumed : Bool
  rest : List Char
deriving DecidableEq, Repr

/-- `strtoimax(s, &end, 10)`: skip C whitespace, read an optional sign,
then a maximal digit run.  If no digits follow, no conversion is
performed (`end == str`).  Values beyond the `intmax_t` range clamp and
set `ERANGE`. -/
def strtoimax10 (s : List Char) : StrtoResult :=
  let t := s.dropWhile isCSpace
  let sr := splitSign t
  if (sr.2.headD '\x00').isDigit then
    let p := parseDigits sr.2 0
    let v : Int := if sr.1 then -(p.1 : Int) else (p.1 : Int)
    if v > INTMAX_MAX then ⟨INTMAX_MAX, true, true, p.2⟩
    else if v < INTMAX_MIN then ⟨INTMAX_MIN, true, true, p.2⟩
    else ⟨v, false, true, p.2⟩
  else ⟨0, false, false, s⟩

/-- `str_to_uint16` from the source: parse with `strtoimax` base 10 and
reject on `ERANGE`, a negative value, a value above `UINT16_MAX`, no
digits consumed, or a non-NUL character at `end`. -/
def str_to_uint16 (s : String) : Option Nat :=
  let r := strtoimax10 s.data
  if r.erange = true ∨ r.value < 0 ∨ r.value > 65535 ∨
      r.consumed = false ∨ r.rest ≠ [] then
    none
  else
    some r.value.toNat

/-- The argument `dlsym` passes to `GetProcAddress`: either a parsed
ordinal (cast to `LPCSTR`) or the original name string. -/
inductive SymbolArg where
  | ordinal (n : Nat)
  | byName (s : String)
deriving DecidableEq, Repr

/-- The ordinal-versus-name dispatch performed at the top of `dlsym`. -/
def dlsymArg (name : String) : SymbolArg :=
  match str_to_uint16 name with
  | some v => SymbolArg.ordinal v
  | none => SymbolArg.byName name

/-- The shim's process-wide mutable state: the `static DWORD lastError`
cell and the process error mode manipulated via
`GetErrorMode`/`SetErrorMode`. -/
structure W32State where
  lastError : Nat
  errorMode : Nat
deriving DecidableEq, Repr

/-- Result of `UTF8toWCHAR`: a wide string, or failure leaving a
platform error code for `GetLastError` (conversion failure, or
`ERROR_OUTOFMEMORY` from a failed `malloc`). -/
inductive ConvResult where
  | ok (w : List Nat)
  | fail (code : Nat)
deriving DecidableEq, Repr

/-- Abstract platform responses: the main-image handle returned by
`GetModuleHandle(NULL)`, UTF-8 conversion, `LoadLibraryW`,
`GetProcAddress`, `FreeLibrary`, and the `GetLastError` code observed
after each failing call. -/
structure Env where
  mainHandle : Nat
  convert : String → ConvResult
  load : List Nat → Option Nat
  loadErrCode : List Nat → Nat
  getProc : Nat → SymbolArg → Option Nat
  procErrCode : Nat → SymbolArg → Nat
  freeLib : Nat → Bool
  freeErrCode : Nat → Nat

/-- Platform interactions of `dlopen` the spec talks about: error-mode
writes and the load call itself, in program order. -/
inductive Event where
  | setMode (m : Nat)
  | loadLib (w : List Nat) (res : Option Nat)
deriving DecidableEq, Repr

/-- `SEM_FAILCRITICALERRORS`. -/
def SEM_FAILCRITICALERRORS : Nat := 1

/-- `dlopen(file, mode)`.  A `none` file returns the main-image handle.
Otherwise the path is converted, the error mode is raised with
`SEM_FAILCRITICALERRORS` around the `LoadLibraryW` call and restored on
both exit paths, and `lastError` records the platform code on failure. -/
def dlopen (env : Env) (file : Option String) (mode : Int) (s : W32State) :
    Option Nat × W32State × List Event :=
  match file with
  | none => (some env.mainHandle, s, [])
  | some f =>
    match env.convert f with
    | ConvResult.fail code => (none, { s with lastError := code }, [])
    | ConvResult.ok w =>
      let errorMode := s.errorMode
      match env.load w with
      | none =>
        (none,
         { s with lastError := env.loadErrCode w, errorMode := errorMode },
         [Event.setMode (errorMode ||| SEM_FAILCRITICALERRORS),
          Event.loadLib w none,
          Event.setMode errorMode])
      | some h =>
        (some h,
         { s with errorMode := errorMode },
         [Event.setMode (errorMode ||| SEM_FAILCRITICALERRORS),
          Event.loadLib w (some h),
          Event.setMode errorMode])

/-- `dlclose(handle)`.  The main-image handle is a successful no-op;
otherwise `FreeLibrary` is called (third component reports whether it
was) and a failure stores the platform code and returns nonzero. -/
def dlclose (env : Env) (handle : Nat) (s : W32State) :
    Nat × W32State × Bool :=
  if handle = env.mainHandle then (0, s, false)
  else if env.freeLib handle then (0, s, true)
  else (1, { s with lastError := env.freeErrCode handle }, true)

/-- `dlsym(handle, name)`.  Dispatches on `str_to_uint16`, calls
`GetProcAddress` with an ordinal or the name (third component), and
stores the platform code on lookup failure. -/
def dlsym (env : Env) (handle : Nat) (name : String) (s : W32State) :
    Option Nat × W32State × SymbolArg :=
  let arg := dlsymArg name
  match env.getProc handle arg with
  | none => (none, { s with lastError := env.procErrCode handle arg }, arg)
  | some a => (some a, s, arg)

/-- `dlerror()`: a non-zero `lastError` is formatted as
`"Win32 error %lu"` into the static buffer and reset; otherwise NULL. -/
def dlerror (s : W32State) : Option String × W32State :=
  if s.lastError ≠ 0 then
    (some ("Win32 error " ++ toString s.lastError), { s with lastError := 0 })
  else
    (none, s)

/-- Size of `dlerror`'s static message buffer, in bytes. -/
def errorMessageBufSize : Nat := 64

/-- Bytes `sprintf` writes into the static buffer for a given error
code: the formatted text plus the NUL terminator. -/
def errorMessageBytes (code : Nat) : Nat :=
  ("Win32 error " ++ toString code).length + 1

/-- Base-10 value of a digit string, most significant first. -/
def decValue (l : List Char) : Nat :=
  l.foldl (fun a c => a * 10 + (c.toNat - 48)) 0

/-- Error code written into `lastError` by a failing `dlopen`: the
conversion-failure code when `UTF8toWCHAR` fails, else the
`LoadLibraryW` failure code. -/
def dlopenFailCode (env : Env) (f : String) : Nat :=
  match env.convert f with
  | ConvResult.fail code => code
  | ConvResult.ok w => env.loadErrCode w

/-- A concrete platform on which every call succeeds. -/
def envA : Env where
  mainHandle := 100
  convert := fun _ => ConvResult.ok [1]
  load := fun _ => some 7
  loadErrCode := fun _ => 11
  getProc := fun _ _ => some 13
  procErrCode := fun _ _ => 17
  freeLib := fun _ => true
  freeErrCode := fun _ => 19

/-- A concrete platform on which every call fails. -/
def envB : Env where
  mainHandle := 100
  convert := fun _ => ConvResult.fail 5
  load := fun _ => none
  loadErrCode := fun _ => 11
  getProc := fun _ _ => none
  procErrCode := fun _ _ => 17
  freeLib := fun _ => false
  freeErrCode := fun _ => 19

/-- A concrete platform on which conversion succeeds but the load fails. -/
def envC : Env where
  mainHandle := 100
  convert := fun _ => ConvResult.ok [2]
  load := fun _ => none
  loadErrCode := fun _ => 11
  getProc := fun _ _ => none
  procErrCode := fun _ _ => 17
  freeLib := fun _ => false
  freeErrCode := fun _ => 19

/-! ## Parsing lemmas -/

theorem isCSpace_eq_false_of_isDigit {c : Char} (h : c.isDigit = true) :
    isCSpace c = false := by
  cases hc : isCSpace c
  · rfl
  · exfalso
    simp only [isCSpace, Bool.or_eq_true, beq_iff_eq] at hc
    rcases hc with ((((h1 | h1) | h1) | h1) | h1) | h1 <;>
      (subst h1; exact absurd h (by decide))

theorem ne_minus_of_isDigit {c : Char} (h : c.isDigit = true) : c ≠ '-' := by
  intro he; subst he; exact absurd h (by decide)

theorem ne_plus_of_isDigit {c : Char} (h : c.isDigit = true) : c ≠ '+' := by
  intro he; subst he; exact absurd h (by decide)

theorem dropWhile_cons_not_space {c : Char} {cs : List Char}
    (h : isCSpace c = false) : (c :: cs).dropWhile isCSpace = c :: cs := by
  rw [List.dropWhile_cons, h]; rfl

theorem splitSign_cons_of_digit {c : Char} {cs : List Char}
    (h : c.isDigit = true) : splitSign (c :: cs) = (false, c :: cs) := by
  simp [splitSign, ne_minus_of_isDigit h, ne_plus_of_isDigit h]

theorem parseDigits_all_digits :
    ∀ (l : List Char) (acc : Nat), (∀ c ∈ l, c.isDigit = true) →
      parseDigits l acc = (l.foldl (fun a c => a * 10 + (c.toNat - 48)) acc, [])
  | [], _, _ => rfl
  | c :: cs, acc, h => by
    have hc : c.isDigit = true := h c (List.mem_cons_self c cs)
    simp only [parseDigits, hc, if_true, List.foldl_cons]
    exact parseDigits_all_digits cs _ (fun d hd => h d (List.mem_cons_of_mem c hd))

theorem strtoimax10_spec (s : List Char) (c : Char) (cs : List Char)
    (hsr1 : (splitSign (s.dropWhile isCSpace)).1 = false)
    (hsr2 : (splitSign (s.dropWhile isCSpace)).2 = c :: cs)
    (hd : ∀ d ∈ c :: cs, d.isDigit = true)
    (hle : decValue (c :: cs) ≤ 65535) :
    strtoimax10 s = ⟨(decValue (c :: cs) : Int), false, true, []⟩ := by
  have hc : c.isDigit = true := hd c (List.mem_cons_self c cs)
  have hpd : parseDigits (c :: cs) 0 = (decValue (c :: cs), []) :=
    parseDigits_all_digits (c :: cs) 0 hd
  have hmax : ¬((decValue (c :: cs) : Int) > INTMAX_MAX) := by
    simp only [INTMAX_MAX]; omega
  have hmin : ¬((decValue (c :: cs) : Int) < INTMAX_MIN) := by
    simp only [INTMAX_MIN]; omega
  unfold strtoimax10
  simp only [hsr2, hsr1, List.headD_cons, hc, if_true, hpd, Bool.false_eq_true,
    if_false, if_neg hmax, if_neg hmin]

theorem str_to_uint16_digits_core (s : String) (c : Char) (cs : List Char)
    (hsr1 : (splitSign (s.data.dropWhile isCSpace)).1 = false)
    (hsr2 : (splitSign (s.data.dropWhile isCSpace)).2 = c :: cs)
    (hd : ∀ d ∈ c :: cs, d.isDigit = true)
    (hle : decValue (c :: cs) ≤ 65535) :
    str_to_uint16 s = some (decValue (c :: cs)) := by
  have h0 : ¬((decValue (c :: cs) : Int) < 0) := by omega
  have h65 : ¬((decValue (c :: cs) : Int) > 65535) := by omega
  unfold str_to_uint16
  rw [strtoimax10_spec s.data c cs hsr1 hsr2 hd hle]
  simp [h0, h65]

/-- The `GetProcAddress` argument reported by `dlsym` is exactly the
dispatch `dlsymArg` computes from the name. -/
theorem dlsym_arg_eq (env : Env) (hdl : Nat) (name : String) (st : W32State) :
    (dlsym env hdl name st).2.2 = dlsymArg name := by
  unfold dlsym
  rcases h : env.getProc hdl (dlsymArg name) with _ | a <;> simp [h]

/-! ## Claim theorems -/

/-- C2: a symbol reference made purely of ASCII digits whose decimal
value is at most 65535 is accepted by `str_to_uint16`, and `dlsym`
performs ordinal-based lookup with the parsed value, never name-based
lookup. -/
theorem C2_pure_digits_resolve_by_ordinal (env : Env) (hdl : Nat)
    (st : W32State) (l : List Char) (hne : l ≠ [])
    (hd : ∀ c ∈ l, c.isDigit = true) (hle : decValue l ≤ 65535) :
    str_to_uint16 (String.mk l) = some (decValue l) ∧
    dlsymArg (String.mk l) = SymbolArg.ordinal (decValue l) ∧
    (dlsym env hdl (String.mk l) st).2.2 = SymbolArg.ordinal (decValue l) := by
  match l, hne with
  | c :: cs, _ =>
    have hc : c.isDigit = true := hd c (List.mem_cons_self c cs)
    have hpre : (splitSign ((String.mk (c :: cs)).data.dropWhile isCSpace)) =
        (false, c :: cs) := by
      rw [show (String.mk (c :: cs)).data = c :: cs from rfl,
        dropWhile_cons_not_space (isCSpace_eq_false_of_isDigit hc),
        splitSign_cons_of_digit hc]
    have hs : str_to_uint16 (String.mk (c :: cs)) = some (decValue (c :: cs)) :=
      str_to_uint16_digits_core _ c cs (by rw [hpre]) (by rw [hpre]) hd hle
    have ha : dlsymArg (String.mk (c :: cs)) =
        SymbolArg.ordinal (decValue (c :: cs)) := by
      unfold dlsymArg; rw [hs]
    exact ⟨hs, ha, by rw [dlsym_arg_eq, ha]⟩

/-- C2 at a concrete input: `"123"` is looked up as ordinal 123. -/
theorem C2_witness :
    (['1', '2', '3'] : List Char) ≠ [] ∧
    (dlsym envA 4 (String.mk ['1', '2', '3']) ⟨0, 0⟩).2.2 =
      SymbolArg.ordinal 123 :=
  ⟨by decide,
   (C2_pure_digits_resolve_by_ordinal envA 4 ⟨0, 0⟩ ['1', '2', '3']
     (by decide) (by decide) (by decide)).2.2⟩

/-- C9: a leading `'+'` before an in-range digit run is accepted by the
`strtoimax`-based parse, so such a reference is looked up by ordinal,
not by name. -/
theorem C9_plus_prefixed_digits_resolve_by_ordinal (env : Env) (hdl : Nat)
    (st : W32State) (l : List Char) (hne : l ≠ [])
    (hd : ∀ c ∈ l, c.isDigit = true) (hle : decValue l ≤ 65535) :
    str_to_uint16 (String.mk ('+' :: l)) = some (decValue l) ∧
    dlsymArg (String.mk ('+' :: l)) = SymbolArg.ordinal (decValue l) ∧
    (dlsym env hdl (String.mk ('+' :: l)) st).2.2 =
      SymbolArg.ordinal (decValue l) := by
  match l, hne with
  | c :: cs, _ =>
    have hpre : (splitSign ((String.mk ('+' :: c :: cs)).data.dropWhile isCSpace)) =
        (false, c :: cs) := rfl
    have hs : str_to_uint16 (String.mk ('+' :: c :: cs)) =
        some (decValue (c :: cs)) :=
      str_to_uint16_digits_core _ c cs (by rw [hpre]) (by rw [hpre]) hd hle
    have ha : dlsymArg (String.mk ('+' :: c :: cs)) =
        SymbolArg.ordinal (decValue (c :: cs)) := by
      unfold dlsymArg; rw [hs]
    exact ⟨hs, ha, by rw [dlsym_arg_eq, ha]⟩

/-- C9 at a concrete input: `"+12"` is looked up as ordinal 12. -/
theorem C9_witness :
    (['1', '2'] : List Char) ≠ [] ∧
    str_to_uint16 (String.mk ('+' :: ['1', '2'])) = some 12 :=
  ⟨by decide,
   (C9_plus_prefixed_digits_resolve_by_ordinal envA 4 ⟨0, 0⟩ ['1', '2']
     (by decide) (by decide) (by decide)).1⟩

/-- C1 (amended): every string the `strtoimax`-based parse rejects —
including `"65536"`, `"-1"`, `""` and `"12a"` — falls through to
name-based lookup with the original byte string; but a string with
leading C whitespace before an in-range digit run, such as `" 12"`, is
accepted by the parse and looked up by ordinal. -/
theorem C1_amended_name_fallback :
    (∀ (env : Env) (hdl : Nat) (st : W32State) (s : String),
        str_to_uint16 s = none →
        dlsymArg s = SymbolArg.byName s ∧
        (dlsym env hdl s st).2.2 = SymbolArg.byName s) ∧
    str_to_uint16 "65536" = none ∧
    str_to_uint16 "-1" = none ∧
    str_to_uint16 "" = none ∧
    str_to_uint16 "12a" = none ∧
    str_to_uint16 " 12" = some 12 := by
  refine ⟨?_, by decide, by decide, by decide, by decide, by decide⟩
  intro env hdl st s h
  have ha : dlsymArg s = SymbolArg.byName s := by unfold dlsymArg; rw [h]
  exact ⟨ha, by rw [dlsym_arg_eq, ha]⟩

/-- C1 at a concrete input: `"12a"` is rejected by the parse and passed
as a name to the platform lookup. -/
theorem C1_witness :
    str_to_uint16 "12a" = none ∧
    (dlsym envA 4 "12a" ⟨0, 0⟩).2.2 = SymbolArg.byName "12a" :=
  ⟨by decide,
   (C1_amended_name_fallback.1 envA 4 ⟨0, 0⟩ "12a" (by decide)).2⟩

/-- C1 counterexample: `" 12"` (leading whitespace) is accepted by the
numeric parse — `strtoimax` skips leading whitespace — so `dlsym` looks
it up by ordinal 12, not by name as the claim states. -/
theorem C1_counterexample_leading_space :
    str_to_uint16 " 12" = some 12 ∧
    (dlsym envA 4 " 12" ⟨0, 0⟩).2.2 = SymbolArg.ordinal 12 ∧
    (dlsym envA 4 " 12" ⟨0, 0⟩).2.2 ≠ SymbolArg.byName " 12" := by
  decide

/-- C3: `dlopen`, `dlclose` and `dlsym` write the platform error code of
the failing call into the Last-Error Slot exactly when they fail (null
handle, null address or nonzero close status); a successful call leaves
the slot unchanged. -/
theorem C3_last_error_iff_failure (env : Env) (f : String) (mode : Int)
    (s : W32State) (hdl : Nat) (name : String) :
    ((dlopen env none mode s).1 = some env.mainHandle ∧
      (dlopen env none mode s).2.1.lastError = s.lastError) ∧
    ((dlopen env (some f) mode s).1.isSome = true →
      (dlopen env (some f) mode s).2.1.lastError = s.lastError) ∧
    ((dlopen env (some f) mode s).1 = none →
      (dlopen env (some f) mode s).2.1.lastError = dlopenFailCode env f) ∧
    ((dlclose env hdl s).1 = 0 →
      (dlclose env hdl s).2.1.lastError = s.lastError) ∧
    ((dlclose env hdl s).1 ≠ 0 →
      (dlclose env hdl s).2.1.lastError = env.freeErrCode hdl) ∧
    ((dlsym env hdl name s).1.isSome = true →
      (dlsym env hdl name s).2.1.lastError = s.lastError) ∧
    ((dlsym env hdl name s).1 = none →
      (dlsym env hdl name s).2.1.lastError = env.procErrCode hdl (dlsymArg name)) := by
  refine ⟨⟨rfl, rfl⟩, ?_, ?_, ?_, ?_, ?_, ?_⟩
  · rcases hc : env.convert f with w | code
    · rcases hl : env.load w with _ | h <;> simp [dlopen, hc, hl]
    · simp [dlopen, hc]
  · rcases hc : env.convert f with w | code
    · rcases hl : env.load w with _ | h <;> simp [dlopen, dlopenFailCode, hc, hl]
    · simp [dlopen, dlopenFailCode, hc]
  · by_cases hm : hdl = env.mainHandle
    · simp [dlclose, hm]
    · cases hf : env.freeLib hdl <;> simp [dlclose, hm, hf]
  · by_cases hm : hdl = env.mainHandle
    · simp [dlclose, hm]
    · cases hf : env.freeLib hdl <;> simp [dlclose, hm, hf]
  · rcases hg : env.getProc hdl (dlsymArg name) with _ | a <;> simp [dlsym, hg]
  · rcases hg : env.getProc hdl (dlsymArg name) with _ | a <;> simp [dlsym, hg]

/-- C3 at concrete inputs: on a platform where each call succeeds the
slot stays `0`; on one where each call fails the slot holds that call's
platform code (conversion code 5, `FreeLibrary` code 19,
`GetProcAddress` code 17). -/
theorem C3_witness :
    (dlopen envA (some "x") 0 ⟨0, 0⟩).2.1.lastError = 0 ∧
    (dlopen envB (some "x") 0 ⟨0, 0⟩).2.1.lastError = 5 ∧
    (dlclose envA 4 ⟨0, 0⟩).2.1.lastError = 0 ∧
    (dlclose envB 4 ⟨0, 0⟩).2.1.lastError = 19 ∧
    (dlsym envA 4 "f" ⟨0, 0⟩).2.1.lastError = 0 ∧
    (dlsym envB 4 "f" ⟨0, 0⟩).2.1.lastError = 17 :=
  ⟨(C3_last_error_iff_failure envA "x" 0 ⟨0, 0⟩ 4 "f").2.1 (by decide),
   (C3_last_error_iff_failure envB "x" 0 ⟨0, 0⟩ 4 "f").2.2.1 (by decide),
   (C3_last_error_iff_failure envA "x" 0 ⟨0, 0⟩ 4 "f").2.2.2.1 (by decide),
   (C3_last_error_iff_failure envB "x" 0 ⟨0, 0⟩ 4 "f").2.2.2.2.1 (by decide),
   (C3_last_error_iff_failure envA "x" 0 ⟨0, 0⟩ 4 "f").2.2.2.2.2.1 (by decide),
   (C3_last_error_iff_failure envB "x" 0 ⟨0, 0⟩ 4 "f").2.2.2.2.2.2 (by decide)⟩

/-- C4: with a non-zero slot, `dlerror` returns the fixed prefix
followed by the code in decimal and zeroes the slot, so an immediately
following call returns NULL; with a zero slot it returns NULL and
changes nothing. -/
theorem C4_dlerror_consumes (s : W32State) :
    (s.lastError ≠ 0 →
      (dlerror s).1 = some ("Win32 error " ++ toString s.lastError) ∧
      (dlerror s).2 = { s with lastError := 0 } ∧
      (dlerror (dlerror s).2).1 = none ∧
      (dlerror (dlerror s).2).2 = (dlerror s).2) ∧
    (s.lastError = 0 → (dlerror s).1 = none ∧ (dlerror s).2 = s) := by
  constructor
  · intro h
    simp [dlerror, h]
  · intro h
    simp [dlerror, h]

/-- C4 at a concrete state: slot 5 yields `"Win32 error 5"` once, then
NULL. -/
theorem C4_witness :
    ((⟨5, 0⟩ : W32State).lastError ≠ 0) ∧
    (dlerror ⟨5, 0⟩).1 = some ("Win32 error " ++ toString (5 : Nat)) ∧
    (dlerror (dlerror ⟨5, 0⟩).2).1 = none :=
  ⟨by decide,
   ((C4_dlerror_consumes ⟨5, 0⟩).1 (by decide)).1,
   ((C4_dlerror_consumes ⟨5, 0⟩).1 (by decide)).2.2.1⟩

/-- C5: `dlopen` with a NULL path returns the main-image handle with the
state untouched and no loader events, and `dlclose` on that handle
returns 0 without invoking `FreeLibrary` and without touching the
state. -/
theorem C5_main_image_no_unload (env : Env) (mode : Int) (s : W32State) :
    dlopen env none mode s = (some env.mainHandle, s, []) ∧
    dlclose env env.mainHandle s = (0, s, false) :=
  ⟨rfl, by simp [dlclose]⟩

/-- C6: whenever the path conversion succeeds, the error mode is raised
to the prior mode with `SEM_FAILCRITICALERRORS` before the load and
restored to exactly the prior mode after it, on the success and on the
failure path alike. -/
theorem C6_error_mode_restored (env : Env) (f : String) (mode : Int)
    (s : W32State) (w : List Nat) (hc : env.convert f = ConvResult.ok w) :
    (dlopen env (some f) mode s).2.2 =
      [Event.setMode (s.errorMode ||| SEM_FAILCRITICALERRORS),
       Event.loadLib w (env.load w),
       Event.setMode s.errorMode] ∧
    (dlopen env (some f) mode s).2.1.errorMode = s.errorMode := by
  rcases hl : env.load w with _ | h <;> simp [dlopen, hc, hl]

/-- C6 at concrete inputs: with prior mode 2 the trace is
`set 3, load, set 2` both when the load succeeds (`envA`) and when it
fails (`envC`), and the final mode is 2. -/
theorem C6_witness :
    envA.convert "x" = ConvResult.ok [1] ∧
    (dlopen envA (some "x") 0 ⟨0, 2⟩).2.2 =
      [Event.setMode 3, Event.loadLib [1] (some 7), Event.setMode 2] ∧
    (dlopen envA (some "x") 0 ⟨0, 2⟩).2.1.errorMode = 2 ∧
    (dlopen envC (some "x") 0 ⟨0, 2⟩).2.2 =
      [Event.setMode 3, Event.loadLib [2] none, Event.setMode 2] ∧
    (dlopen envC (some "x") 0 ⟨0, 2⟩).2.1.errorMode = 2 :=
  ⟨rfl,
   (C6_error_mode_restored envA "x" 0 ⟨0, 2⟩ [1] rfl).1,
   (C6_error_mode_restored envA "x" 0 ⟨0, 2⟩ [1] rfl).2,
   (C6_error_mode_restored envC "x" 0 ⟨0, 2⟩ [2] rfl).1,
   (C6_error_mode_restored envC "x" 0 ⟨0, 2⟩ [2] rfl).2⟩

/-- C7: the `mode` argument has no influence on `dlopen`: two calls from
the same state with the same path but different mode flags return the
same result, the same state and the same events. -/
theorem C7_mode_flags_ignored (env : Env) (file : Option String)
    (m1 m2 : Int) (s : W32State) :
    dlopen env file m1 s = dlopen env file m2 s := rfl

/-- C8: for every 32-bit error code the formatted message (prefix, at
most 10 decimal digits, NUL) occupies at most 23 bytes, within the
64-byte static buffer. -/
theorem C8_message_fits_buffer (code : Nat) (h : code < 2 ^ 32) :
    errorMessageBytes code ≤ 23 ∧ 23 ≤ errorMessageBufSize := by
  constructor
  · have hlt : code < 10 ^ 10 := lt_trans h (by norm_num)
    have hr : (Nat.repr code).length ≤ 10 :=
      Nat.repr_length code 10 (by norm_num) hlt
    have he : ("Win32 error " ++ toString code).length =
        12 + (Nat.repr code).length := by
      rw [String.length_append]
      congr 1
    unfold errorMessageBytes
    rw [he]
    omega
  · decide

/-- C8 at the largest 32-bit code: the message for 4294967295 fits. -/
theorem C8_witness :
    (4294967295 : Nat) < 2 ^ 32 ∧ errorMessageBytes 4294967295 ≤ 23 :=
  ⟨by norm_num, (C8_message_fits_buffer 4294967295 (by norm_num)).1⟩

/-- C10: the ordinal-versus-name dispatch (and the parsed ordinal value)
is a pure function of the name string alone — the handle and the prior
state, including the Last-Error Slot, have no influence. -/
theorem C10_dispatch_pure_in_name (env : Env) (h1 h2 : Nat)
    (s1 s2 : W32State) (name : String) :
    (dlsym env h1 name s1).2.2 = dlsymArg name ∧
    (dlsym env h1 name s1).2.2 = (dlsym env h2 name s2).2.2 :=
  ⟨dlsym_arg_eq env h1 name s1, by rw [dlsym_arg_eq, dlsym_arg_eq]⟩
